import Mathlib

/-
Verification of the Al-Cu arXiv explorer (src/alcu_welding_step1_query.py)
against its natural-language specification.

The program is a Streamlit script that queries the arXiv API, filters the
results by category and publication year, downloads PDFs, and shows/exports
a metadata table.  Below is a shallow embedding of its data model and the
operations the claims are about:

  * `RawResult` models an `arxiv.Result` as far as the script reads it.
  * `query_arxiv` models the function of the same name (lines 23-49).
    The remote side is passed in explicitly: the iterator
    `client.results(search)` is modelled as a list of `Except String
    RawResult`, an `.error` element standing for a network/parsing
    exception raised while pulling the next result.  The arxiv library
    yields at most `search.max_results` raw results, so the stream the
    loop sees is `remote.take max_results`.
  * `download_pdf` models the function of the same name (lines 52-59);
    the network outcome (bytes stored, or the exception text) is an
    explicit `DownloadOutcome` oracle.
  * `downloadStep` / `downloadAll` model the download loop (lines 159-166).
  * `handleSearch` models the search-button handler (lines 132-141).
  * `paperCsvRow` / `to_csv` model `pd.DataFrame(papers).to_csv(index=False)`
    (line 177): header from the dict keys in insertion order, one
    newline-terminated row per record, minimal quoting.

String primitives of Python (slicing, `split`, `strip`, `in`, `join`) are
modelled on the character list of the Lean string, so that every
definition reduces on concrete inputs.
-/

/-- Python slicing `s[:n]`: the first `n` characters. -/
def strTake (s : String) (n : Nat) : String := ⟨s.data.take n⟩

/-- Splitting a character list at every occurrence of `sep` (Python
`str.split(sep)` for a one-character separator: separators are dropped, a
leading/trailing/double separator yields an empty segment). -/
def splitOnChar (sep : Char) : List Char → List (List Char)
  | [] => [[]]
  | c :: rest =>
    if c = sep then [] :: splitOnChar sep rest
    else
      match splitOnChar sep rest with
      | [] => [[c]]
      | l :: ls => (c :: l) :: ls

/-- Python `s.split('/')`. -/
def splitSlash (s : String) : List String :=
  (splitOnChar '/' s.data).map String.mk

/-- The lines of a string: segments between newline characters (a trailing
newline yields a final empty segment). -/
def linesOf (s : String) : List (List Char) :=
  splitOnChar '\n' s.data

/-- Python `str.strip()` with no argument: whitespace removed from both
ends. -/
def pyStrip (s : String) : String :=
  ⟨((s.data.dropWhile Char.isWhitespace).reverse.dropWhile Char.isWhitespace).reverse⟩

/-- Python `", ".join(parts)`. -/
def joinCommaSpace : List String → String
  | [] => ""
  | [c] => c
  | c :: rest => c ++ ", " ++ joinCommaSpace rest

/-- Does the character list start with the first argument? -/
def startsWithList : List Char → List Char → Bool
  | [], _ => true
  | _ :: _, [] => false
  | a :: as, b :: bs => (a = b) && startsWithList as bs

/-- Python substring test `needle in hay` on character lists. -/
def containsList (needle : List Char) : List Char → Bool
  | [] => startsWithList needle []
  | c :: t => startsWithList needle (c :: t) || containsList needle t

/-- Python `needle in hay` on strings: contiguous substring. -/
def strContains (hay needle : String) : Bool :=
  containsList needle.data hay.data

/-- One raw arXiv API result, as far as the script reads it:
`entry_id`, `title`, `summary`, `categories`, `published.year`, `pdf_url`. -/
structure RawResult where
  entry_id : String
  title : String
  summary : String
  categories : List String
  publishedYear : Int
  pdf_url : Option String
deriving DecidableEq, Repr

/-- One row of the result table, exactly the dict built at lines 35-43. -/
structure Paper where
  id : String
  title : String
  year : Int
  categories : String
  abstract : String
  pdf_url : Option String
  download_status : String
deriving DecidableEq, Repr

/-- The filter condition of line 34:
`any(cat in result.categories for cat in categories)
 and start_year <= result.published.year <= end_year`. -/
def matchesFilter (r : RawResult) (cats : List String) (sy ey : Int) : Bool :=
  cats.any (fun c => r.categories.contains c) &&
    (decide (sy ≤ r.publishedYear) && decide (r.publishedYear ≤ ey))

/-- The record constructed from a raw result at lines 35-43. -/
def toPaper (r : RawResult) : Paper :=
  { id := (splitSlash r.entry_id).getLastD ""
    title := r.title
    year := r.publishedYear
    categories := joinCommaSpace r.categories
    abstract :=
      if 200 < r.summary.length then strTake r.summary 200 ++ "..." else r.summary
    pdf_url := r.pdf_url
    download_status := "Not downloaded" }

/-- The collection loop of lines 32-45: iterate over the raw stream, append
the record when the filter accepts, and break once `max_results` records
have been collected.  Pulling an `.error` element raises, which aborts the
whole loop (the `except` at line 47 catches it). -/
def collect (cats : List String) (sy ey : Int) (maxr : Nat) :
    List (Except String RawResult) → List Paper → Except String (List Paper)
  | [], acc => .ok acc
  | .error e :: _, _ => .error e
  | .ok r :: rest, acc =>
    let acc' := if matchesFilter r cats sy ey then acc ++ [toPaper r] else acc
    if maxr ≤ acc'.length then .ok acc' else collect cats sy ey maxr rest acc'

/-- Model of `query_arxiv` (lines 23-49).  The arxiv client yields at most
`max_results` raw results (that is what `arxiv.Search(max_results=...)`
caps), hence the `remote.take max_results`.  On any exception the function
shows one error message (`st.error`, line 48) and returns the empty list;
the pair's second component is that message. -/
def query_arxiv (remote : List (Except String RawResult)) (query : String)
    (cats : List String) (max_results : Nat) (start_year end_year : Int) :
    List Paper × Option String :=
  match collect cats start_year end_year max_results (remote.take max_results) [] with
  | .ok ps => (ps, none)
  | .error e => ([], some ("Error querying arXiv: " ++ e))

/-- Outcome of `urllib.request.urlretrieve` plus `os.path.getsize`:
either the stored file's size in bytes, or the text of the exception. -/
inductive DownloadOutcome where
  | success (sizeBytes : Nat)
  | failure (reason : String)
deriving DecidableEq, Repr

/-- Python `f"{bytes/1024:.1f}"`: kilobytes rounded to one decimal place,
ties to even (`bytes/1024` is exact in binary for any realistic size, so
`%.1f` rounds the true value half-to-even). -/
def formatKB (sizeBytes : Nat) : String :=
  let t10 := sizeBytes * 10
  let q := t10 / 1024
  let r := t10 % 1024
  let tenths := if 512 < r then q + 1 else if r < 512 then q else q + q % 2
  toString (tenths / 10) ++ "." ++ toString (tenths % 10)

/-- Model of `download_pdf` (lines 52-59): returns `"Downloaded (<size> KB)"` on
success and `"Failed: <exception text>"` on any exception. -/
def download_pdf (outcome : DownloadOutcome) : String :=
  match outcome with
  | .success sizeBytes => "Downloaded (" ++ formatKB sizeBytes ++ " KB)"
  | .failure reason => "Failed: " ++ reason

/-- Python truthiness of `paper["pdf_url"]` at line 160: `None` and the
empty string are falsy. -/
def truthy : Option String → Bool
  | none => false
  | some s => s ≠ ""

/-- One iteration of the download loop (lines 160-164): set
`download_status` from `download_pdf` when a PDF URL is present, to
`"No PDF URL"` otherwise.  The network outcome for a given URL is the
oracle's value. -/
def downloadStep (oracle : Option String → DownloadOutcome) (p : Paper) : Paper :=
  if truthy p.pdf_url then
    { p with download_status := download_pdf (oracle p.pdf_url) }
  else
    { p with download_status := "No PDF URL" }

/-- The whole download loop (lines 159-166): every record processed in
order, status updated in place. -/
def downloadAll (oracle : Option String → DownloadOutcome) (papers : List Paper) :
    List Paper :=
  papers.map (downloadStep oracle)

/-- The loop's state after `i` iterations: the first `i` records have their
status updated, the rest still carry the status they were constructed with. -/
def downloadLoopState (oracle : Option String → DownloadOutcome)
    (papers : List Paper) (i : Nat) : List Paper :=
  (papers.take i).map (downloadStep oracle) ++ papers.drop i

/-- The search-button handler (lines 132-141): validation first
(non-blank query, non-empty category selection, `start_year <= end_year`),
then `query_arxiv`.  First component: the `st.error` message, if any;
second: the result of `query_arxiv`, if it ran.  Python `not query.strip()`
is true exactly when the stripped query is empty. -/
def handleSearch (remote : List (Except String RawResult)) (query : String)
    (cats : List String) (max_results : Nat) (start_year end_year : Int) :
    Option String × Option (List Paper × Option String) :=
  if pyStrip query = "" then
    (some "Please enter a valid query.", none)
  else if cats = [] then
    (some "Please select at least one category.", none)
  else if start_year > end_year then
    (some "Start year must be less than or equal to end year.", none)
  else
    (none, some (query_arxiv remote query cats max_results start_year end_year))

/-- Doubling of quote characters inside a quoted CSV cell. -/
def doubleQuotes : List Char → List Char
  | [] => []
  | c :: rest => if c = '"' then '"' :: '"' :: doubleQuotes rest else c :: doubleQuotes rest

/-- One CSV cell under pandas' default minimal quoting: quoted (with inner
quotes doubled) only when the text holds a delimiter, quote or line break. -/
def csvCell (s : String) : String :=
  if s.data.contains ',' || s.data.contains '"' || s.data.contains '\n'
      || s.data.contains '\r' then
    "\"" ++ String.mk (doubleQuotes s.data) ++ "\""
  else s

/-- How pandas renders the `pdf_url` column: `None` becomes the empty cell. -/
def optCell : Option String → String
  | none => ""
  | some s => s

/-- One data row of `df.to_csv(index=False)` (line 177): the seven dict
fields in insertion order, comma separated. -/
def paperCsvRow (p : Paper) : String :=
  csvCell p.id ++ "," ++ csvCell p.title ++ "," ++ toString p.year ++ "," ++
    csvCell p.categories ++ "," ++ csvCell p.abstract ++ "," ++
    csvCell (optCell p.pdf_url) ++ "," ++ csvCell p.download_status

/-- The newline-terminated data rows of the CSV, in record order. -/
def csvBody : List Paper → String
  | [] => ""
  | p :: ps => paperCsvRow p ++ "\n" ++ csvBody ps

/-- Model of `df.to_csv(index=False)` (line 177): header row from the dict keys in
insertion order — `pdf_url` included — then one row per record, each line
newline-terminated. -/
def to_csv (papers : List Paper) : String :=
  "id,title,year,categories,abstract,pdf_url,download_status" ++ "\n" ++
    csvBody papers

/-- Count of records the summary line (line 186) reports as downloaded
successfully: `sum(1 for p in papers if "Downloaded" in p["download_status"])`,
membership by substring, as Python `in` on strings. -/
def downloadedCount (papers : List Paper) : Nat :=
  papers.countP (fun p => strContains p.download_status "Downloaded")


/-- If the stream fits under the cap, the collection loop never breaks
early and returns exactly the accepted records, in order. -/
theorem collect_ok_eq (cats : List String) (sy ey : Int) (maxr : Nat)
    (raws : List RawResult) :
    ∀ acc : List Paper, acc.length + raws.length ≤ maxr →
      collect cats sy ey maxr (raws.map .ok) acc =
        .ok (acc ++ (raws.filter (fun r => matchesFilter r cats sy ey)).map toPaper) := by
  induction raws with
  | nil => intro acc _; simp [collect]
  | cons r rest ih =>
    intro acc h
    simp only [List.length_cons] at h
    simp only [List.map_cons, collect]
    by_cases hf : matchesFilter r cats sy ey = true
    · rw [if_pos hf]
      by_cases hb : maxr ≤ (acc ++ [toPaper r]).length
      · rw [if_pos hb]
        have hrest : rest = [] := by
          apply List.length_eq_zero.mp
          simp only [List.length_append, List.length_cons, List.length_nil] at hb
          omega
        subst hrest
        simp [List.filter_cons, hf]
      · have hlen : (acc ++ [toPaper r]).length + rest.length ≤ maxr := by
          simp only [List.length_append, List.length_cons, List.length_nil]
          omega
        rw [if_neg hb, ih (acc ++ [toPaper r]) hlen]
        simp [List.filter_cons, hf, List.append_assoc]
    · rw [if_neg hf]
      have hb : ¬ maxr ≤ acc.length := by omega
      have hlen : acc.length + rest.length ≤ maxr := by omega
      rw [if_neg hb, ih acc hlen]
      simp [List.filter_cons, hf]

/-- The collection loop adds at most one record per stream element. -/
theorem collect_ok_length (cats : List String) (sy ey : Int) (maxr : Nat)
    (st : List (Except String RawResult)) :
    ∀ acc ps : List Paper,
      collect cats sy ey maxr st acc = .ok ps → ps.length ≤ acc.length + st.length := by
  induction st with
  | nil =>
    intro acc ps h
    simp only [collect, Except.ok.injEq] at h
    subst h
    simp
  | cons x rest ih =>
    intro acc ps h
    match x with
    | .error e => simp [collect] at h
    | .ok r =>
      simp only [collect] at h
      by_cases hf : matchesFilter r cats sy ey = true
      · rw [if_pos hf] at h
        by_cases hb : maxr ≤ (acc ++ [toPaper r]).length
        · rw [if_pos hb] at h
          simp only [Except.ok.injEq] at h
          subst h
          simp only [List.length_append, List.length_cons, List.length_nil]
          omega
        · rw [if_neg hb] at h
          have := ih (acc ++ [toPaper r]) ps h
          simp only [List.length_append, List.length_cons, List.length_nil] at this
          simp only [List.length_cons]
          omega
      · rw [if_neg hf] at h
        by_cases hb : maxr ≤ acc.length
        · rw [if_pos hb] at h
          simp only [Except.ok.injEq] at h
          subst h
          simp only [List.length_cons]
          omega
        · rw [if_neg hb] at h
          have := ih acc ps h
          simp only [List.length_cons]
          omega

/-- If an exception is raised while pulling a raw result before the cap is
reached, the whole loop aborts with that exception. -/
theorem collect_error_eq (cats : List String) (sy ey : Int) (maxr : Nat) (e : String)
    (rest : List (Except String RawResult)) (pre : List RawResult) :
    ∀ acc : List Paper,
      acc.length + (pre.filter (fun r => matchesFilter r cats sy ey)).length < maxr →
      collect cats sy ey maxr (pre.map .ok ++ .error e :: rest) acc = .error e := by
  induction pre with
  | nil => intro acc _; simp [collect]
  | cons r pre' ih =>
    intro acc h
    simp only [List.filter_cons] at h
    simp only [List.map_cons, List.cons_append, collect]
    by_cases hf : matchesFilter r cats sy ey = true
    · rw [if_pos hf]
      rw [if_pos hf] at h
      simp only [List.length_cons] at h
      have hb : ¬ maxr ≤ (acc ++ [toPaper r]).length := by
        simp only [List.length_append, List.length_cons, List.length_nil]
        omega
      rw [if_neg hb]
      apply ih
      simp only [List.length_append, List.length_cons, List.length_nil]
      omega
    · rw [if_neg hf]
      rw [if_neg hf] at h
      have hb : ¬ maxr ≤ acc.length := by omega
      rw [if_neg hb]
      exact ih acc h

/-- Every record the collection loop returns is either inherited from the
accumulator or built by `toPaper` from some raw result. -/
theorem collect_ok_mem (cats : List String) (sy ey : Int) (maxr : Nat)
    (st : List (Except String RawResult)) :
    ∀ acc ps : List Paper,
      collect cats sy ey maxr st acc = .ok ps →
      ∀ p ∈ ps, p ∈ acc ∨ ∃ r : RawResult, p = toPaper r := by
  induction st with
  | nil =>
    intro acc ps h p hp
    simp only [collect, Except.ok.injEq] at h
    subst h
    exact .inl hp
  | cons x rest ih =>
    intro acc ps h p hp
    match x with
    | .error e => simp [collect] at h
    | .ok r =>
      simp only [collect] at h
      by_cases hf : matchesFilter r cats sy ey = true
      · rw [if_pos hf] at h
        by_cases hb : maxr ≤ (acc ++ [toPaper r]).length
        · rw [if_pos hb] at h
          simp only [Except.ok.injEq] at h
          subst h
          rcases List.mem_append.mp hp with hin | hin
          · exact .inl hin
          · simp only [List.mem_singleton] at hin
            exact .inr ⟨r, hin⟩
        · rw [if_neg hb] at h
          rcases ih (acc ++ [toPaper r]) ps h p hp with hin | hex
          · rcases List.mem_append.mp hin with hin' | hin'
            · exact .inl hin'
            · simp only [List.mem_singleton] at hin'
              exact .inr ⟨r, hin'⟩
          · exact .inr hex
      · rw [if_neg hf] at h
        by_cases hb : maxr ≤ acc.length
        · rw [if_pos hb] at h
          simp only [Except.ok.injEq] at h
          subst h
          exact .inl hp
        · rw [if_neg hb] at h
          exact ih acc ps h p hp

/-- On an error-free remote stream, `query_arxiv` returns exactly the
accepted records among the first `max_results` raw results, with no error
message. -/
theorem query_arxiv_ok_eq (remote : List RawResult) (q : String) (cats : List String)
    (maxr : Nat) (sy ey : Int) :
    query_arxiv (remote.map .ok) q cats maxr sy ey =
      (((remote.take maxr).filter (fun r => matchesFilter r cats sy ey)).map toPaper,
        none) := by
  unfold query_arxiv
  rw [← List.map_take,
    collect_ok_eq cats sy ey maxr (remote.take maxr) []
      (by simp only [List.length_nil, List.length_take]; omega)]
  simp

/-- Every record `query_arxiv` returns still carries the construction-time
status `"Not downloaded"`. -/
theorem query_arxiv_status (remote : List (Except String RawResult)) (q : String)
    (cats : List String) (maxr : Nat) (sy ey : Int) :
    ∀ p ∈ (query_arxiv remote q cats maxr sy ey).1,
      p.download_status = "Not downloaded" := by
  intro p hp
  unfold query_arxiv at hp
  cases hcol : collect cats sy ey maxr (remote.take maxr) [] with
  | ok ps =>
    rw [hcol] at hp
    rcases collect_ok_mem cats sy ey maxr _ _ _ hcol p hp with hin | ⟨r, rfl⟩
    · exact absurd hin (List.not_mem_nil p)
    · rfl
  | error e =>
    rw [hcol] at hp
    change p ∈ ([] : List Paper) at hp
    exact absurd hp (List.not_mem_nil p)

/-- Associativity of string concatenation, via the underlying lists. -/
theorem strAppend_assoc (a b c : String) : a ++ b ++ c = a ++ (b ++ c) := by
  apply String.ext
  simp [String.data_append, List.append_assoc]

/-- A substring of a list is a substring of any right-extension of a
prefix. -/
theorem containsList_append_left (needle pre l : List Char)
    (h : containsList needle l = true) :
    containsList needle (pre ++ l) = true := by
  induction pre with
  | nil => simpa using h
  | cons c t ih =>
    show containsList needle (c :: (t ++ l)) = true
    rw [containsList, ih]
    simp

/-- Splitting distributes over a separator-free prefix followed by one
separator. -/
theorem splitOnChar_append_cons (sep : Char) (a b : List Char) (ha : sep ∉ a) :
    splitOnChar sep (a ++ sep :: b) = a :: splitOnChar sep b := by
  induction a with
  | nil => simp [splitOnChar]
  | cons c t ih =>
    simp only [List.mem_cons, not_or] at ha
    obtain ⟨hc, ht⟩ := ha
    show splitOnChar sep (c :: (t ++ sep :: b)) = _
    rw [splitOnChar, if_neg (fun heq => hc heq.symm), ih ht]

/-- The CSV body splits into one line per record (plus the empty trailing
segment), provided no row text holds a raw newline. -/
theorem splitOnChar_csvBody (papers : List Paper)
    (h : ∀ p ∈ papers, '\n' ∉ (paperCsvRow p).data) :
    splitOnChar '\n' (csvBody papers).data =
      papers.map (fun p => (paperCsvRow p).data) ++ [[]] := by
  induction papers with
  | nil => simp [csvBody, splitOnChar]
  | cons p ps ih =>
    have hrow : '\n' ∉ (paperCsvRow p).data := h p (List.mem_cons_self p ps)
    have hrest : ∀ q ∈ ps, '\n' ∉ (paperCsvRow q).data :=
      fun q hq => h q (List.mem_cons_of_mem p hq)
    show splitOnChar '\n' (paperCsvRow p ++ "\n" ++ csvBody ps).data = _
    rw [String.data_append, String.data_append]
    have hnl : ("\n").data = ['\n'] := rfl
    rw [hnl, List.append_assoc, List.singleton_append,
      splitOnChar_append_cons _ _ _ hrow, ih hrest]
    simp

/-- The download-status vocabulary stated by the spec: the default, the
missing-URL literal, a success status with the size to one decimal place,
or a failure status. -/
def validStatus (s : String) : Prop :=
  s = "Not downloaded" ∨ s = "No PDF URL" ∨
    (∃ a b : Nat, b < 10 ∧
      s = "Downloaded (" ++ (toString a ++ "." ++ toString b) ++ " KB)") ∨
    ∃ t : String, s = "Failed: " ++ t

/-- The size format always reads `<integer>.<digit>`: one decimal place. -/
theorem formatKB_shape (n : Nat) :
    ∃ a b : Nat, b < 10 ∧ formatKB n = toString a ++ "." ++ toString b := by
  unfold formatKB
  exact ⟨_, _, Nat.mod_lt _ (by norm_num), rfl⟩

/-- After one download-loop iteration, the status is in the spec's
vocabulary (success, failure, or missing URL). -/
theorem downloadStep_validStatus (oracle : Option String → DownloadOutcome)
    (p : Paper) : validStatus (downloadStep oracle p).download_status := by
  unfold downloadStep
  split
  · show validStatus (download_pdf (oracle p.pdf_url))
    match oracle p.pdf_url with
    | .failure reason => exact .inr (.inr (.inr ⟨reason, rfl⟩))
    | .success n =>
      obtain ⟨a, b, hb, heq⟩ := formatKB_shape n
      refine .inr (.inr (.inl ⟨a, b, hb, ?_⟩))
      show "Downloaded (" ++ formatKB n ++ " KB)" = _
      rw [heq]
  · exact .inr (.inl rfl)

/-- C4: for every remote stream, query, category set, year range and
`max_results`, the search returns at most `max_results` records. -/
theorem spec_c4_result_count_le_max (remote : List (Except String RawResult))
    (q : String) (cats : List String) (maxr : Nat) (sy ey : Int) :
    (query_arxiv remote q cats maxr sy ey).1.length ≤ maxr := by
  unfold query_arxiv
  cases hcol : collect cats sy ey maxr (remote.take maxr) [] with
  | ok ps =>
    have hlen := collect_ok_length cats sy ey maxr _ _ _ hcol
    simp only [List.length_nil, List.length_take] at hlen
    show ps.length ≤ maxr
    omega
  | error e => simp

/-- C8: the download phase rewrites only `download_status`; the identifier,
title, year, categories, abstract and PDF URL of every record survive the
download loop unchanged (and display/export below only read the records). -/
theorem spec_c8_download_frame (oracle : Option String → DownloadOutcome)
    (papers : List Paper) :
    (downloadAll oracle papers).map
        (fun p => (p.id, p.title, p.year, p.categories, p.abstract, p.pdf_url)) =
      papers.map
        (fun p => (p.id, p.title, p.year, p.categories, p.abstract, p.pdf_url)) := by
  unfold downloadAll
  rw [List.map_map]
  apply List.map_congr_left
  intro p _
  unfold downloadStep
  simp only [Function.comp_apply]
  split <;> rfl

/-- C9: the abstract is the raw summary when it fits in 200 characters and
the first 200 characters followed by `"..."` exactly when it does not. -/
theorem spec_c9_abstract_truncation (r : RawResult) :
    (r.summary.length ≤ 200 → (toPaper r).abstract = r.summary) ∧
    (200 < r.summary.length →
      (toPaper r).abstract = strTake r.summary 200 ++ "...") ∧
    ((toPaper r).abstract = strTake r.summary 200 ++ "..." ↔
      200 < r.summary.length) := by
  have habs : (toPaper r).abstract =
      if 200 < r.summary.length then strTake r.summary 200 ++ "..." else r.summary := rfl
  have htak : (strTake r.summary 200).length = min 200 r.summary.length := by
    rw [strTake, String.length_mk, List.length_take]
    rfl
  have hlen3 : (strTake r.summary 200 ++ "...").length =
      min 200 r.summary.length + 3 := by
    rw [String.length_append, htak]
    rfl
  refine ⟨?_, ?_, ?_, ?_⟩
  · intro h
    rw [habs, if_neg (by omega)]
  · intro h
    rw [habs, if_pos h]
  · intro heq
    by_contra hnot
    rw [habs, if_neg hnot] at heq
    have : r.summary.length = min 200 r.summary.length + 3 := by
      conv_lhs => rw [heq]
      exact hlen3
    omega
  · intro h
    rw [habs, if_pos h]

/-- C3: the records returned on an error-free remote stream are exactly
the images of the raw results retained by the filter; a raw result among
those examined is retained precisely when its categories meet the
requested set and its year lies in the inclusive range, and every returned
record's year and categories reflect that. -/
theorem spec_c3_filter_correct (remote : List RawResult) (q : String)
    (cats : List String) (maxr : Nat) (sy ey : Int) :
    ((query_arxiv (remote.map .ok) q cats maxr sy ey).1 =
      ((remote.take maxr).filter (fun r => matchesFilter r cats sy ey)).map toPaper) ∧
    (∀ r : RawResult,
      r ∈ (remote.take maxr).filter (fun r => matchesFilter r cats sy ey) ↔
        r ∈ remote.take maxr ∧
          ((∃ c ∈ cats, c ∈ r.categories) ∧ sy ≤ r.publishedYear ∧
            r.publishedYear ≤ ey)) ∧
    (∀ p ∈ (query_arxiv (remote.map .ok) q cats maxr sy ey).1,
      sy ≤ p.year ∧ p.year ≤ ey ∧
        ∃ r ∈ remote.take maxr, p = toPaper r ∧ ∃ c ∈ cats, c ∈ r.categories) := by
  have hq := query_arxiv_ok_eq remote q cats maxr sy ey
  have hmatch : ∀ r : RawResult, matchesFilter r cats sy ey = true ↔
      (∃ c ∈ cats, c ∈ r.categories) ∧ sy ≤ r.publishedYear ∧
        r.publishedYear ≤ ey := by
    intro r
    unfold matchesFilter
    simp [List.any_eq_true]
  refine ⟨by rw [hq], ?_, ?_⟩
  · intro r
    rw [List.mem_filter, hmatch r]
  · intro p hp
    rw [hq] at hp
    simp only [List.mem_map, List.mem_filter] at hp
    obtain ⟨r, ⟨hmem, hacc⟩, rfl⟩ := hp
    obtain ⟨⟨c, hc, hcin⟩, hsy, hey⟩ := (hmatch r).mp hacc
    exact ⟨hsy, hey, r, hmem, rfl, c, hc, hcin⟩

/-- C3 instance: with one matching raw result and a cap of 1, the record
built from it is returned. -/
theorem spec_c3_filter_correct_witness :
    (⟨"2501.00001v1", "T", 2020, "cond-mat.mtrl-sci", "S", some "u",
        "Not downloaded"⟩ : Paper) ∈
      (query_arxiv (([⟨"http://arxiv.org/abs/2501.00001v1", "T", "S",
        ["cond-mat.mtrl-sci"], 2020, some "u"⟩] : List RawResult).map Except.ok)
        "q" ["cond-mat.mtrl-sci"] 1 2015 2024).1 := by
  have h := (spec_c3_filter_correct
    [⟨"http://arxiv.org/abs/2501.00001v1", "T", "S",
      ["cond-mat.mtrl-sci"], 2020, some "u"⟩]
    "q" ["cond-mat.mtrl-sci"] 1 2015 2024).1
  rw [h]
  decide

/-- C5: the handler reports the first failed validation check and never
invokes the search; the search runs exactly when the stripped query is
non-empty, a category is selected, and the year range is not inverted. -/
theorem spec_c5_validation_gates_search (remote : List (Except String RawResult))
    (query : String) (cats : List String) (maxr : Nat) (sy ey : Int) :
    (pyStrip query = "" →
      handleSearch remote query cats maxr sy ey =
        (some "Please enter a valid query.", none)) ∧
    (pyStrip query ≠ "" → cats = [] →
      handleSearch remote query cats maxr sy ey =
        (some "Please select at least one category.", none)) ∧
    (pyStrip query ≠ "" → cats ≠ [] → sy > ey →
      handleSearch remote query cats maxr sy ey =
        (some "Start year must be less than or equal to end year.", none)) ∧
    (pyStrip query ≠ "" → cats ≠ [] → sy ≤ ey →
      handleSearch remote query cats maxr sy ey =
        (none, some (query_arxiv remote query cats maxr sy ey))) := by
  unfold handleSearch
  refine ⟨?_, ?_, ?_, ?_⟩
  · intro h1
    rw [if_pos h1]
  · intro h1 h2
    rw [if_neg h1, if_pos h2]
  · intro h1 h2 h3
    rw [if_neg h1, if_neg h2, if_pos h3]
  · intro h1 h2 h3
    rw [if_neg h1, if_neg h2, if_neg (by omega)]

/-- C5 instance: a blank query is rejected; valid inputs reach the search. -/
theorem spec_c5_validation_gates_search_witness :
    handleSearch [] "   " ["cond-mat.mtrl-sci"] 5 2015 2024 =
      (some "Please enter a valid query.", none) ∧
    handleSearch [] "welding" ["cond-mat.mtrl-sci"] 5 2015 2024 =
      (none, some (query_arxiv [] "welding" ["cond-mat.mtrl-sci"] 5 2015 2024)) :=
  ⟨(spec_c5_validation_gates_search [] "   " ["cond-mat.mtrl-sci"] 5 2015 2024).1
      (by decide),
    (spec_c5_validation_gates_search [] "welding" ["cond-mat.mtrl-sci"] 5 2015
      2024).2.2.2 (by decide) (by decide) (by decide)⟩

/-- C6: if pulling a raw result raises at any point before the cap is
reached — after any number of cleanly delivered raw results — the search
returns the empty sequence together with the single error message; the
records collected before the failure are discarded. -/
theorem spec_c6_error_aborts_search (q : String) (cats : List String)
    (maxr : Nat) (sy ey : Int) (pre : List RawResult) (e : String)
    (post : List (Except String RawResult)) (hpre : pre.length < maxr) :
    query_arxiv (pre.map .ok ++ .error e :: post) q cats maxr sy ey =
      ([], some ("Error querying arXiv: " ++ e)) := by
  have htake : ((pre.map Except.ok : List (Except String RawResult)) ++
        Except.error e :: post).take maxr =
      (pre.map Except.ok : List (Except String RawResult)) ++
        Except.error e :: post.take (maxr - pre.length - 1) := by
    rw [List.take_append_eq_append_take]
    have h1 : (pre.map (Except.ok : RawResult → Except String RawResult)).take maxr =
        pre.map Except.ok :=
      List.take_of_length_le (by simp; omega)
    have h2 : maxr - (pre.map (Except.ok : RawResult → Except String RawResult)).length =
        (maxr - pre.length - 1) + 1 := by
      simp only [List.length_map]
      omega
    rw [h1, h2, List.take_succ_cons]
  have hcond : ([] : List Paper).length +
      (pre.filter (fun r => matchesFilter r cats sy ey)).length < maxr := by
    have := List.length_filter_le (fun r => matchesFilter r cats sy ey) pre
    simp only [List.length_nil]
    omega
  unfold query_arxiv
  rw [htake, collect_error_eq cats sy ey maxr e _ pre [] hcond]

/-- C6 instance: an error right after one delivered raw result wipes the
partial result and surfaces the message. -/
theorem spec_c6_error_aborts_search_witness :
    query_arxiv (([⟨"http://arxiv.org/abs/2501.00001v1", "T", "S",
        ["cond-mat.mtrl-sci"], 2020, some "u"⟩] : List RawResult).map Except.ok ++
        Except.error "connection reset" :: []) "q" ["cond-mat.mtrl-sci"] 5 2015 2024 =
      ([], some ("Error querying arXiv: " ++ "connection reset")) :=
  spec_c6_error_aborts_search "q" ["cond-mat.mtrl-sci"] 5 2015 2024
    [⟨"http://arxiv.org/abs/2501.00001v1", "T", "S",
      ["cond-mat.mtrl-sci"], 2020, some "u"⟩] "connection reset" [] (by decide)

/-- C7: at every point of the pipeline — right after construction and
after any number of download-loop iterations — each record's status is the
default, the missing-URL literal, a one-decimal success report, or a
failure report. -/
theorem spec_c7_status_vocabulary (remote : List (Except String RawResult))
    (q : String) (cats : List String) (maxr : Nat) (sy ey : Int)
    (oracle : Option String → DownloadOutcome) (i : Nat) :
    ∀ p ∈ downloadLoopState oracle (query_arxiv remote q cats maxr sy ey).1 i,
      validStatus p.download_status := by
  intro p hp
  unfold downloadLoopState at hp
  rcases List.mem_append.mp hp with hin | hin
  · obtain ⟨p0, _, rfl⟩ := List.mem_map.mp hin
    exact downloadStep_validStatus oracle p0
  · have hmem : p ∈ (query_arxiv remote q cats maxr sy ey).1 :=
      List.mem_of_mem_drop hin
    exact .inl (query_arxiv_status remote q cats maxr sy ey p hmem)

/-- C7 instance: after downloading one found record whose retrieval fails,
its status is in the vocabulary. -/
theorem spec_c7_status_vocabulary_witness :
    validStatus (Paper.download_status (downloadStep (fun _ => .failure "timeout")
      (toPaper ⟨"http://arxiv.org/abs/2501.00001v1", "T", "S",
        ["cond-mat.mtrl-sci"], 2020, some "u"⟩))) := by
  apply spec_c7_status_vocabulary
    (([⟨"http://arxiv.org/abs/2501.00001v1", "T", "S",
      ["cond-mat.mtrl-sci"], 2020, some "u"⟩] : List RawResult).map Except.ok)
    "q" ["cond-mat.mtrl-sci"] 1 2015 2024 (fun _ => .failure "timeout") 1
  decide

/-- C10: the summary counts a record as downloaded when `"Downloaded"`
occurs anywhere in its status, so a failed download whose exception text
happens to contain `"Downloaded"` is counted as a success even though its
status is a failure report. -/
theorem spec_c10_substring_count (reason : String) (p : Paper)
    (oracle : Option String → DownloadOutcome)
    (hr : strContains reason "Downloaded" = true)
    (hu : truthy p.pdf_url = true)
    (ho : oracle p.pdf_url = .failure reason) :
    (downloadStep oracle p).download_status = "Failed: " ++ reason ∧
    downloadedCount [downloadStep oracle p] = 1 := by
  have hstat : (downloadStep oracle p).download_status = "Failed: " ++ reason := by
    unfold downloadStep
    rw [if_pos hu]
    show download_pdf (oracle p.pdf_url) = _
    rw [ho]
    rfl
  have hsub : strContains ("Failed: " ++ reason) "Downloaded" = true := by
    unfold strContains at hr ⊢
    rw [String.data_append]
    exact containsList_append_left _ _ _ hr
  refine ⟨hstat, ?_⟩
  unfold downloadedCount
  rw [List.countP_cons]
  simp [hstat, hsub]

/-- C10 instance: a record whose retrieval fails with an exception text
containing `"Downloaded"` gets a `"Failed: ..."` status yet is counted as
one successful download by the summary. -/
theorem spec_c10_substring_count_witness :
    (downloadStep (fun _ => .failure "server said: Downloaded 0 bytes")
        ⟨"2501.00001v1", "T", 2020, "cond-mat.mtrl-sci", "S", some "u",
          "Not downloaded"⟩).download_status =
      "Failed: " ++ "server said: Downloaded 0 bytes" ∧
    downloadedCount [downloadStep (fun _ => .failure "server said: Downloaded 0 bytes")
        ⟨"2501.00001v1", "T", 2020, "cond-mat.mtrl-sci", "S", some "u",
          "Not downloaded"⟩] = 1 :=
  spec_c10_substring_count "server said: Downloaded 0 bytes"
    ⟨"2501.00001v1", "T", 2020, "cond-mat.mtrl-sci", "S", some "u", "Not downloaded"⟩
    (fun _ => .failure "server said: Downloaded 0 bytes")
    (by decide) (by decide) rfl

/-- C1 counterexample: exporting one concrete record yields a CSV whose
header line is the seven-column one including `pdf_url`, not the
six-column header the claim states, and the text `pdf_url` does occur in
the export. -/
theorem spec_c1_counterexample :
    (linesOf (to_csv [⟨"2501.00001v1", "T", 2020, "cond-mat.mtrl-sci", "A",
        some "http://arxiv.org/pdf/2501.00001v1", "Not downloaded"⟩])).headD [] ≠
      "id,title,year,categories,abstract,download_status".data ∧
    (linesOf (to_csv [⟨"2501.00001v1", "T", 2020, "cond-mat.mtrl-sci", "A",
        some "http://arxiv.org/pdf/2501.00001v1", "Not downloaded"⟩])).headD [] =
      "id,title,year,categories,abstract,pdf_url,download_status".data ∧
    strContains (to_csv [⟨"2501.00001v1", "T", 2020, "cond-mat.mtrl-sci", "A",
        some "http://arxiv.org/pdf/2501.00001v1", "Not downloaded"⟩]) "pdf_url" =
      true := by
  refine ⟨by decide, by decide, by decide⟩

/-- C1 amended: the export's header row names the seven stored fields —
`pdf_url` included — and, when no row text holds a raw newline, the export
splits into that header line followed by exactly one line per record, in
order (plus the empty segment after the final newline). -/
theorem spec_c1_amended_export_columns (papers : List Paper)
    (h : ∀ p ∈ papers, '\n' ∉ (paperCsvRow p).data) :
    linesOf (to_csv papers) =
      "id,title,year,categories,abstract,pdf_url,download_status".data ::
        papers.map (fun p => (paperCsvRow p).data) ++ [[]] := by
  unfold linesOf to_csv
  rw [String.data_append, String.data_append]
  have hnl : ("\n").data = ['\n'] := rfl
  have hhdr :
      '\n' ∉ ("id,title,year,categories,abstract,pdf_url,download_status").data := by
    decide
  rw [hnl, List.append_assoc, List.singleton_append,
    splitOnChar_append_cons _ _ _ hhdr, splitOnChar_csvBody papers h,
    List.cons_append]

/-- C1 amended instance: the two-line export of one record. -/
theorem spec_c1_amended_export_columns_witness :
    linesOf (to_csv [⟨"2501.00001v1", "T", 2020, "cond-mat.mtrl-sci", "A",
        some "u", "Not downloaded"⟩]) =
      "id,title,year,categories,abstract,pdf_url,download_status".data ::
        [⟨"2501.00001v1", "T", 2020, "cond-mat.mtrl-sci", "A",
          some "u", "Not downloaded"⟩].map (fun p => (paperCsvRow p).data) ++
        [[]] :=
  spec_c1_amended_export_columns
    [⟨"2501.00001v1", "T", 2020, "cond-mat.mtrl-sci", "A", some "u",
      "Not downloaded"⟩] (by decide)

/-- C2 counterexample: with `maxResults = 2` and a remote source holding
two non-matching raw results followed by a matching one, the search
returns no records — fewer than `maxResults` — although the remote source
still holds a matching result: the cap limits the raw results examined,
not only the records retained. -/
theorem spec_c2_counterexample :
    (query_arxiv (([⟨"http://arxiv.org/abs/2501.00001v1", "A", "S", ["math.CO"],
          2020, none⟩,
        ⟨"http://arxiv.org/abs/2501.00002v1", "B", "S", ["math.CO"], 2020, none⟩,
        ⟨"http://arxiv.org/abs/2501.00003v1", "C", "S", ["cond-mat.mtrl-sci"],
          2020, none⟩] : List RawResult).map Except.ok)
        "q" ["cond-mat.mtrl-sci"] 2 2015 2024).1 = [] ∧
    (⟨"http://arxiv.org/abs/2501.00003v1", "C", "S", ["cond-mat.mtrl-sci"],
        2020, none⟩ : RawResult) ∈
      ([⟨"http://arxiv.org/abs/2501.00001v1", "A", "S", ["math.CO"], 2020, none⟩,
        ⟨"http://arxiv.org/abs/2501.00002v1", "B", "S", ["math.CO"], 2020, none⟩,
        ⟨"http://arxiv.org/abs/2501.00003v1", "C", "S", ["cond-mat.mtrl-sci"],
          2020, none⟩] : List RawResult) ∧
    matchesFilter ⟨"http://arxiv.org/abs/2501.00003v1", "C", "S",
        ["cond-mat.mtrl-sci"], 2020, none⟩ ["cond-mat.mtrl-sci"] 2015 2024 =
      true ∧
    (0 : Nat) < 2 := by
  refine ⟨by decide, by decide, by decide, by decide⟩

/-- C2 amended: `maxResults` caps the raw results pulled from the remote
source; the filter then runs over that capped prefix, so the search
returns the accepted records among the first `maxResults` raw results and
may return fewer than `maxResults` even when the remote source holds
further matching results. -/
theorem spec_c2_amended_cap_on_raw (remote : List RawResult) (q : String)
    (cats : List String) (maxr : Nat) (sy ey : Int) :
    (query_arxiv (remote.map .ok) q cats maxr sy ey).1 =
      ((remote.take maxr).filter (fun r => matchesFilter r cats sy ey)).map
        toPaper := by
  rw [query_arxiv_ok_eq]

set_option maxRecDepth 8000 in
/-- C9 instance: a short summary is kept verbatim; a 205-character one is
cut at 200 characters and the marker appended. -/
theorem spec_c9_abstract_truncation_witness :
    (toPaper ⟨"http://arxiv.org/abs/1v1", "T", "short summary",
        ["cond-mat.mtrl-sci"], 2020, none⟩).abstract = "short summary" ∧
    (toPaper ⟨"http://arxiv.org/abs/2v1", "T",
        "xxxxxxxxxxxxxxxxxxxxxxxxxxxxxxxxxxxxxxxxxxxxxxxxxxxxxxxxxxxxxxxxxxxxxxxxxxxxxxxxxxxxxxxxxxxxxxxxxxxxxxxxxxxxxxxxxxxxxxxxxxxxxxxxxxxxxxxxxxxxxxxxxxxxxxxxxxxxxxxxxxxxxxxxxxxxxxxxxxxxxxxxxxxxxxxxxxxxxxxxxxxxx",
        ["cond-mat.mtrl-sci"], 2020, none⟩).abstract =
      strTake
        "xxxxxxxxxxxxxxxxxxxxxxxxxxxxxxxxxxxxxxxxxxxxxxxxxxxxxxxxxxxxxxxxxxxxxxxxxxxxxxxxxxxxxxxxxxxxxxxxxxxxxxxxxxxxxxxxxxxxxxxxxxxxxxxxxxxxxxxxxxxxxxxxxxxxxxxxxxxxxxxxxxxxxxxxxxxxxxxxxxxxxxxxxxxxxxxxxxxxxxxxxxxxx"
        200 ++ "..." :=
  ⟨(spec_c9_abstract_truncation ⟨"http://arxiv.org/abs/1v1", "T",
      "short summary", ["cond-mat.mtrl-sci"], 2020, none⟩).1 (by decide),
    (spec_c9_abstract_truncation ⟨"http://arxiv.org/abs/2v1", "T",
      "xxxxxxxxxxxxxxxxxxxxxxxxxxxxxxxxxxxxxxxxxxxxxxxxxxxxxxxxxxxxxxxxxxxxxxxxxxxxxxxxxxxxxxxxxxxxxxxxxxxxxxxxxxxxxxxxxxxxxxxxxxxxxxxxxxxxxxxxxxxxxxxxxxxxxxxxxxxxxxxxxxxxxxxxxxxxxxxxxxxxxxxxxxxxxxxxxxxxxxxxxxxxx",
      ["cond-mat.mtrl-sci"], 2020, none⟩).2.1 (by decide)⟩
